import Mathlib

/-!
Shallow embedding of the revolving-credit statement engine of
`cash-flow-tracker-api-v2`, translated from:

* `src/utils/creditStatementCalculator.js` (pure calculator),
* `src/controllers/debtController.js` (accrueDebt / getDebtStatementPreview),
* `src/utils/finance.js` (`nextDateForDayOfMonth`, `daysBetweenDates`),
* `src/validators/debtValidators.js` + `src/middleware/validation.js`
  (the `period` query-parameter gate on the accrue routes).

Currency amounts and rates are rational numbers; calendar dates are either
structured `(year, month, day)` triples (JS `Date` date-only values with
0-based months) or integer day numbers (proleptic Gregorian rata die), since
the engine only ever consumes dates through whole-day differences and
comparisons.
-/

namespace CashFlow

/-- Models JavaScript `Number(x.toFixed(2))` on exact decimal inputs:
round to 2 decimal places, ties rounded up (agrees with `toFixed` on all
non-tie values, which is all this development evaluates it on). Written
with `Rat.floor` so it evaluates by kernel reduction; `round2_def` restates
it with `Int.floor`. -/
def round2 (q : ℚ) : ℚ := (((q * 100 + 1 / 2).floor : ℤ) : ℚ) / 100

/-- A rational is a 2-decimal-place amount (an integer count of cents). -/
def isR2 (q : ℚ) : Prop := ∃ n : ℤ, q = (n : ℚ) / 100

/-- A JavaScript value supplied as an annual rate: `null`, `undefined`, a
non-finite number, or a finite number. -/
inductive RateArg where
  | jsNull
  | jsUndefined
  | nanNum
  | infNum
  | negInfNum
  | num (q : ℚ)
deriving DecidableEq

/-- `normalizeAnnualRateToUnit` — creditStatementCalculator.js lines 5-10:
null/undefined/non-finite map to 0; a finite value strictly greater than 1
is divided by 100; anything else passes through unchanged. -/
def normalizeAnnualRateToUnit : RateArg → ℚ
  | .num q => if 1 < q then q / 100 else q
  | _ => 0

/-- Ledger event kind (`entryType` after lowercasing). -/
inductive EntryKind where
  | charge
  | payment
deriving DecidableEq, Repr

/-- One extracted ledger event: `{date, kind, amount}` with the date as a
day number. -/
structure Event where
  date : ℤ
  kind : EntryKind
  amount : ℚ
deriving DecidableEq

/-- A raw `Expenses` row as the controller reads it (fields may be absent). -/
structure Expense where
  debtId : Option String
  date : Option ℤ
  entryType : Option String
  amount : ℚ
deriving DecidableEq

/-- Sort key realising the comparator of `buildEvents` (lines 85-89): date
ascending, and on equal dates payments (rank 0) before charges (rank 1). -/
def evKey (e : Event) : ℤ :=
  2 * e.date + (match e.kind with | .payment => 0 | .charge => 1)

/-- The comparator's total preorder: `a` may come before `b`. -/
def evLe (a b : Event) : Prop := evKey a ≤ evKey b

instance : DecidableRel evLe := fun a b => inferInstanceAs (Decidable (evKey a ≤ evKey b))

instance : IsTotal Event evLe := ⟨fun a b => le_total (evKey a) (evKey b)⟩

instance : IsTrans Event evLe := ⟨fun _ _ _ h h' => le_trans h h'⟩

/-- `buildEvents` — creditStatementCalculator.js lines 68-91: filter the
expense rows to the target debt, a date inside `[startInclusive,
endExclusive)`, a strictly positive amount and a charge/payment entry type,
then sort by date with payments before charges on equal dates (the JS
stable sort with the line-85 comparator yields a list sorted by `evLe`). -/
def buildEvents (expenses : List Expense) (debtId : String)
    (startInclusive endExclusive : ℤ) : List Event :=
  let events := expenses.filterMap (fun e =>
    match e.debtId, e.date with
    | some did, some d =>
      if did = "" then none
      else if did ≠ debtId then none
      else if startInclusive ≤ d ∧ d < endExclusive then
        if e.amount ≤ 0 then none
        else
          let entryType := (e.entryType.getD "").toLower
          if entryType = "charge" then some ⟨d, .charge, e.amount⟩
          else if entryType = "payment" then some ⟨d, .payment, e.amount⟩
          else none
      else none
    | _, _ => none)
  events.insertionSort evLe

/-- Unrounded sum of charge amounts (the `reduce` of line 94 before
`toFixed`; also exactly the inline sum of debtController.js line 444). -/
def rawSumCharges (events : List Event) : ℚ :=
  (events.filter (fun e => e.kind == .charge)).foldl (fun s e => s + e.amount) 0

/-- Unrounded sum of payment amounts (debtController.js line 445). -/
def rawSumPayments (events : List Event) : ℚ :=
  (events.filter (fun e => e.kind == .payment)).foldl (fun s e => s + e.amount) 0

/-- `sumCharges` — lines 93-95: the charge sum rounded to 2 decimals. -/
def sumCharges (events : List Event) : ℚ := round2 (rawSumCharges events)

/-- `sumPayments` — lines 97-99: the payment sum rounded to 2 decimals. -/
def sumPayments (events : List Event) : ℚ := round2 (rawSumPayments events)

/-- State of the daily-balance walk of `computeSpdInterests` (lines
101-134): cursor date, non-bonificable (carried) balance `nb`, bonificable
(new) balance `b`, and the two balance-day accumulators. -/
structure SpdState where
  cursor : ℤ
  nb : ℚ
  b : ℚ
  nbDays : ℚ
  bDays : ℚ
deriving DecidableEq

/-- `addSegment` — lines 109-116: accrue `(days since cursor) × balance`
into each accumulator and advance the cursor, but only when the day count
is strictly positive. -/
def addSegment (s : SpdState) (u : ℤ) : SpdState :=
  if 0 < u - s.cursor then
    { cursor := u
      nb := s.nb
      b := s.b
      nbDays := s.nbDays + s.nb * ((u - s.cursor : ℤ) : ℚ)
      bDays := s.bDays + s.b * ((u - s.cursor : ℤ) : ℚ) }
  else s

/-- Event application — lines 118-128: accrue the segment up to the event
date, then a payment reduces `nb` first (down to 0) with any remainder
reducing `b` (down to 0), while a charge increases `b`. -/
def applyEvent (s : SpdState) (e : Event) : SpdState :=
  let s := addSegment s e.date
  match e.kind with
  | .payment =>
    let appliedToNb := min s.nb e.amount
    { s with nb := s.nb - appliedToNb, b := max 0 (s.b - (e.amount - appliedToNb)) }
  | .charge => { s with b := s.b + e.amount }

/-- Initial walk state — lines 103-107: cursor at the window's lower bound,
`nb = max 0 previousBalance`, everything else 0. -/
def spdInit (previousBalance : ℚ) (start : ℤ) : SpdState :=
  { cursor := start, nb := max 0 previousBalance, b := 0, nbDays := 0, bDays := 0 }

/-- The full walk: fold the events, then accrue the final segment up to
`endDate` (line 129's `addSegment(toDateOnly(end))`). -/
def runSpd (previousBalance : ℚ) (events : List Event) (start endDate : ℤ) : SpdState :=
  addSegment (events.foldl applyEvent (spdInit previousBalance start)) endDate

/-- `computeSpdInterests` — lines 101-134: `(interestSobreSaldo,
interestBonificable)`, each `balanceDays × annualRateUnit / 365` rounded to
2 decimals. -/
def computeSpdInterests (previousBalance : ℚ) (events : List Event)
    (annualRateUnit : ℚ) (start endDate : ℤ) : ℚ × ℚ :=
  let s := runSpd previousBalance events start endDate
  (round2 (s.nbDays * (annualRateUnit / 365)), round2 (s.bDays * (annualRateUnit / 365)))

/-! ### Calendar model

JS date-only values `new Date(y, m, d)` (0-based month `m`) are embedded as
`(year, month, day)` triples; JS's silent month/day rollover is reproduced
by `normYM` (month) and by the linearity of `dayNumber` in the day field.
Comparisons and `Math.round((b-a)/86400000)` differences of date-only
values coincide with comparisons and differences of `dayNumber` (proleptic
Gregorian rata die). -/

/-- A date-only JS `Date`: 0-based month, 1-based day (when normalized). -/
structure CalDate where
  year : ℤ
  month : ℤ
  day : ℤ
deriving DecidableEq, Repr

/-- Gregorian leap-year rule (what `new Date(y, 1, 29).getDate() === 29`
implements). -/
def isLeap (y : ℤ) : Bool := (y % 4 == 0 && y % 100 != 0) || y % 400 == 0

/-- Days in 0-based month `m` of year `y` — JS
`new Date(y, m + 1, 0).getDate()`. Total function; callers only use
`0 ≤ m ≤ 11`. -/
def daysInMonth (y m : ℤ) : ℤ :=
  match m.toNat with
  | 0 => 31
  | 1 => if isLeap y then 29 else 28
  | 2 => 31
  | 3 => 30
  | 4 => 31
  | 5 => 30
  | 6 => 31
  | 7 => 31
  | 8 => 30
  | 9 => 31
  | 10 => 30
  | _ => 31

/-- `clampDay` — creditStatementCalculator.js lines 17-20 (identical
helpers at finance.js lines 55-58 and debtController.js lines 355, 567):
`Math.min(Math.max(1, day), lastDayOfMonth)`. -/
def clampDay (y m day : ℤ) : ℤ := min (max 1 day) (daysInMonth y m)

/-- JS `Date` year/month normalization: `new Date(y, m, …)` with any
integer `m` lands in year `y + ⌊m/12⌋`, month `m mod 12`. -/
def normYM (y m : ℤ) : ℤ × ℤ := (y + m.fdiv 12, m.emod 12)

/-- Days of year `y` that precede 0-based month `m` (for normalized `m`). -/
def daysBeforeMonth (y m : ℤ) : ℤ :=
  let leapAdj : ℤ := if isLeap y then 1 else 0
  match m.toNat with
  | 0 => 0
  | 1 => 31
  | 2 => 59 + leapAdj
  | 3 => 90 + leapAdj
  | 4 => 120 + leapAdj
  | 5 => 151 + leapAdj
  | 6 => 181 + leapAdj
  | 7 => 212 + leapAdj
  | 8 => 243 + leapAdj
  | 9 => 273 + leapAdj
  | 10 => 304 + leapAdj
  | _ => 334 + leapAdj

/-- Rata-die day number of a date (proleptic Gregorian). Linear in `day`,
mirroring JS's day rollover in `new Date(y, m, d)`. -/
def dayNumber (dt : CalDate) : ℤ :=
  365 * (dt.year - 1) + (dt.year - 1).fdiv 4 - (dt.year - 1).fdiv 100
    + (dt.year - 1).fdiv 400 + daysBeforeMonth dt.year dt.month + dt.day

/-- `daysBetween` / `daysBetweenDates` — exact whole-day difference of two
date-only values (`Math.round((b-a)/86400000)`). -/
def daysBetween (a b : CalDate) : ℤ := dayNumber b - dayNumber a

/-- Date-only `Date` comparison, as lexicographic order on normalized
`(year, month, day)` triples (this is JS `<=` on their time values). -/
def dateLE (a b : CalDate) : Prop :=
  a.year < b.year ∨ (a.year = b.year ∧
    (a.month < b.month ∨ (a.month = b.month ∧ a.day ≤ b.day)))

instance (a b : CalDate) : Decidable (dateLE a b) := by
  unfold dateLE; infer_instance

/-- A calendar-normalized date-only value. -/
def ValidDate (dt : CalDate) : Prop :=
  0 ≤ dt.month ∧ dt.month ≤ 11 ∧ 1 ≤ dt.day ∧ dt.day ≤ daysInMonth dt.year dt.month

/-- `nextDateForDayOfMonth` — finance.js lines 63-74: the `targetDay`
occurrence (clamped to month length) in the base date's month, or, if that
falls strictly before the base date (a same-month comparison, so a
day-of-month comparison), the clamped occurrence in the following month. -/
def nextDateForDayOfMonth (targetDay : ℤ) (base : CalDate) : CalDate :=
  let thisMonthDay := clampDay base.year base.month targetDay
  if thisMonthDay < base.day then
    let p := normYM base.year (base.month + 1)
    ⟨p.1, p.2, clampDay p.1 p.2 targetDay⟩
  else ⟨base.year, base.month, thisMonthDay⟩

/-- Output of `resolvePeriodBounds` — creditStatementCalculator.js
lines 29-66. -/
structure PeriodBounds where
  prevStatementDate : CalDate
  statementDate : CalDate
  nextStatementDate : CalDate
  dueDate : CalDate
  periodDays : ℤ
deriving DecidableEq

/-- `resolvePeriodBounds` — lines 29-66. `cutOffDay`/`dueDay` are `none`
when not finite. The statement date is the latest cutoff occurrence on or
before the base date (line 39 compares days of month), else the last day of
the previous month; the due date (lines 59-61) is the clamped due day *in
the statement month*, defaulting to day 25 — with no anchoring to the
statement date. -/
def resolvePeriodBounds (cutOffDay dueDay : Option ℤ) (base : CalDate) : PeriodBounds :=
  let statementDate : CalDate :=
    match cutOffDay with
    | some c =>
      let cut : CalDate := ⟨base.year, base.month, clampDay base.year base.month c⟩
      if cut.day ≤ base.day then cut
      else
        let p := normYM base.year (base.month - 1)
        ⟨p.1, p.2, clampDay p.1 p.2 c⟩
    | none =>
      let p := normYM base.year (base.month - 1)
      ⟨p.1, p.2, daysInMonth p.1 p.2⟩
  let prevStatementDate : CalDate :=
    match cutOffDay with
    | some c =>
      let p := normYM statementDate.year (statementDate.month - 1)
      ⟨p.1, p.2, clampDay p.1 p.2 c⟩
    | none =>
      let p := normYM statementDate.year (statementDate.month - 1)
      ⟨p.1, p.2, daysInMonth p.1 p.2⟩
  let nextStatementDate : CalDate :=
    match cutOffDay with
    | some c =>
      let p := normYM statementDate.year (statementDate.month + 1)
      ⟨p.1, p.2, clampDay p.1 p.2 c⟩
    | none => ⟨statementDate.year, statementDate.month, daysInMonth statementDate.year statementDate.month⟩
  let dueDate : CalDate :=
    match dueDay with
    | some k => ⟨statementDate.year, statementDate.month, clampDay statementDate.year statementDate.month k⟩
    | none => ⟨statementDate.year, statementDate.month, clampDay statementDate.year statementDate.month 25⟩
  { prevStatementDate := prevStatementDate
    statementDate := statementDate
    nextStatementDate := nextStatementDate
    dueDate := dueDate
    periodDays := daysBetween prevStatementDate statementDate }

/-- `computeStatement` — lines 136-138. -/
def computeStatement (previousBalance charges interests payments : ℚ) : ℚ :=
  round2 (max 0 (previousBalance + charges + interests - payments))

/-- `computeInstallmentBalance` — lines 140-142. -/
def computeInstallmentBalance (statementBalance bonificable : ℚ) : ℚ :=
  round2 (statementBalance + bonificable)

/-- The debt fields `calculateStatement` and the statement endpoints read. -/
structure Debt where
  id : String
  balance : ℚ
  dueDay : Option ℤ
  cutOffDay : Option ℤ
  interesEfectivo : RateArg
deriving DecidableEq

/-- Result record of `calculateStatement` — lines 167-184 (dates omitted;
they are `resolvePeriodBounds`' bounds serialized). -/
structure CalcStatementResult where
  previousBalance : ℚ
  charges : ℚ
  interests : ℚ
  payments : ℚ
  statementBalance : ℚ
  bonifiableInterest : ℚ
  installmentBalance : ℚ
  annualEffectiveRate : ℚ
  periodDays : ℤ
deriving DecidableEq

/-- `calculateStatement` — creditStatementCalculator.js lines 144-184.
Expense dates are day numbers, the event window is
`[prevStatementDate, statementDate)` (line 152), but the interest walk is
invoked with `nextStatementDate` as its upper bound (line 160).
`optsPreviousBalance` models `opts.previousBalance` when finite. -/
def calculateStatement (debt : Debt) (expenses : List Expense)
    (optsPreviousBalance : Option ℚ) (periodDate : CalDate) : CalcStatementResult :=
  let bounds := resolvePeriodBounds debt.cutOffDay debt.dueDay periodDate
  let annualUnit := normalizeAnnualRateToUnit debt.interesEfectivo
  let periodEvents := buildEvents expenses debt.id
    (dayNumber bounds.prevStatementDate) (dayNumber bounds.statementDate)
  let charges := sumCharges periodEvents
  let payments := sumPayments periodEvents
  let previousBalance := optsPreviousBalance.getD debt.balance
  let si := computeSpdInterests previousBalance periodEvents annualUnit
    (dayNumber bounds.prevStatementDate) (dayNumber bounds.nextStatementDate)
  let interests := round2 si.1
  let bonifiableInterest := round2 si.2
  let statementBalance := computeStatement previousBalance charges interests payments
  let installmentBalance := computeInstallmentBalance statementBalance bonifiableInterest
  { previousBalance := previousBalance
    charges := charges
    interests := interests
    payments := payments
    statementBalance := statementBalance
    bonifiableInterest := bonifiableInterest
    installmentBalance := installmentBalance
    annualEffectiveRate := annualUnit
    periodDays := bounds.periodDays }

/-! ### The accrue / preview controller (debtController.js) -/

/-- An `ApiError(status, message)` thrown by the route pipeline. -/
structure ApiError where
  status : ℕ
  message : String
deriving DecidableEq

/-- Whether a string matches `/^\d{4}-\d{2}$/` (debtValidators.js line 175
and debtController.js lines 360, 572). -/
def matchesYYYYMM (s : String) : Bool :=
  match s.data with
  | [a, b, c, d, e, f, g] =>
    a.isDigit && b.isDigit && c.isDigit && d.isDigit && e == '-' && f.isDigit && g.isDigit
  | _ => false

/-- Decimal value of an ASCII digit character. -/
def digitVal (c : Char) : ℤ := (c.toNat : ℤ) - 48

/-- `parseInt` of the two halves of a matching `YYYY-MM` tag; the month is
made 0-based (debtController.js lines 361-363). Junk for non-matching
strings (never consumed on that path). -/
def parsePeriodYM (s : String) : ℤ × ℤ :=
  match s.data with
  | [a, b, c, d, _, f, g] =>
    (1000 * digitVal a + 100 * digitVal b + 10 * digitVal c + digitVal d,
      10 * digitVal f + digitVal g - 1)
  | _ => (0, 0)

/-- Reference-date statement resolution — debtController.js lines 373-388
(same logic as `resolvePeriodBounds`' statement date): latest cutoff
occurrence on or before the base date, else the last day of the previous
month. -/
def referenceStatementDate (cutOffDay : Option ℤ) (base : CalDate) : CalDate :=
  match cutOffDay with
  | some c =>
    let cut : CalDate := ⟨base.year, base.month, clampDay base.year base.month c⟩
    if cut.day ≤ base.day then cut
    else
      let p := normYM base.year (base.month - 1)
      ⟨p.1, p.2, clampDay p.1 p.2 c⟩
  | none =>
    let p := normYM base.year (base.month - 1)
    ⟨p.1, p.2, daysInMonth p.1 p.2⟩

/-- Statement-date resolution of the accrue/preview routes, including the
route middleware. The routes are wired as
`[accrueDebtValidator, validate, accrueDebt]` (debtRoutes.js lines
142-146): a present `period` query value failing `/^\d{4}-\d{2}$/` is
rejected by `validate` with `ApiError(400, 'Validation failed')`
(debtValidators.js line 175, validation.js line 17) before the controller
runs; the controller then re-tests the regex and throws
`ApiError(400, 'Invalid period format. Expected YYYY-MM')` when the parsed
0-based month is outside `0..11` (debtController.js lines 360-372). -/
def accrueStatementDate (periodParam : Option String) (cutOffDay : Option ℤ)
    (base : CalDate) : Except ApiError CalDate :=
  match periodParam with
  | some s =>
    if matchesYYYYMM s then
      let ym := parsePeriodYM s
      if ym.2 < 0 ∨ 11 < ym.2 then
        .error ⟨400, "Invalid period format. Expected YYYY-MM"⟩
      else
        match cutOffDay with
        | some c => .ok ⟨ym.1, ym.2, clampDay ym.1 ym.2 c⟩
        | none => .ok ⟨ym.1, ym.2, daysInMonth ym.1 ym.2⟩
    else .error ⟨400, "Validation failed"⟩
  | none => .ok (referenceStatementDate cutOffDay base)

/-- A period tag the spec calls a valid `YYYY-MM` year/month. -/
def validPeriodTag (s : String) : Prop :=
  matchesYYYYMM s = true ∧ 0 ≤ (parsePeriodYM s).2 ∧ (parsePeriodYM s).2 ≤ 11

instance (s : String) : Decidable (validPeriodTag s) := by
  unfold validPeriodTag; infer_instance

/-- Due-date resolution of the accrue/preview routes — debtController.js
lines 394-396 and 603-605: the anchored `nextDateForDayOfMonth` occurrence
when a due day is configured, else day 25 of the statement month clamped. -/
def accrueDueDate (dueDay : Option ℤ) (statementDate : CalDate) : CalDate :=
  match dueDay with
  | some k => nextDateForDayOfMonth k statementDate
  | none => ⟨statementDate.year, statementDate.month,
      clampDay statementDate.year statementDate.month 25⟩

/-- `startPeriod` — debtController.js line 424:
`new Date(stY, stM - 1, stD)` as a day number (JS rolls an overflowing day
forward, which `dayNumber`'s linearity in the day reproduces). -/
def accrueStartPeriod (statementDate : CalDate) : ℤ :=
  let p := normYM statementDate.year (statementDate.month - 1)
  dayNumber ⟨p.1, p.2, statementDate.day⟩

/-- Modelled from the spec: `computeInterestCarryOver` is imported by
debtController.js (line 6) from creditStatementCalculator.js and called at
lines 485 and 685, but its definition is not among the provided sources.
Spec §4.4: if the payments made between the prior statement's date and its
due date are less than the prior record's forgivable interest, the
shortfall becomes the carry-over; otherwise the carry-over is 0. -/
def computeInterestCarryOver (prevBonifiableInterest paid : ℚ) : ℚ :=
  if paid < prevBonifiableInterest then prevBonifiableInterest - paid else 0

/-- Total-interest assembly — debtController.js line 490:
`Number((interestSobreSaldo + interestCarryOver).toFixed(2))`. -/
def accrueTotalInterests (interestSobreSaldo carryOver : ℚ) : ℚ :=
  round2 (interestSobreSaldo + carryOver)

/-- The persisted CreditHistory record — debtController.js lines 498-513
(currency fields only; dates and `termMonths` omitted). -/
structure CreditRecord where
  previousBalance : ℚ
  charges : ℚ
  interests : ℚ
  payments : ℚ
  statementBalance : ℚ
  bonifiableInterest : ℚ
  installmentBalance : ℚ
  annualEffectiveRate : ℚ
  paymentMade : ℚ
deriving DecidableEq

/-- Record assembly of `accrueDebt` — debtController.js lines 444-513. The
inline walk of lines 449-475 is `computeSpdInterests` verbatim with bounds
`startPeriod` and `statementDate`; `charges`/`payments` (lines 444-445) are
the raw, unrounded sums; `previousBalance` is stored as read (line 419,
504); `carryOver` is `computeInterestCarryOver` of the prior record and
`paymentMade` comes from `sumPaymentsForDebt` (both taken as inputs here,
being prior-record/store reads). -/
def mkAccrueRecord (previousBalance : ℚ) (events : List Event)
    (annualRateUnit : ℚ) (startPeriod statementDay : ℤ)
    (carryOver paymentMade : ℚ) : CreditRecord :=
  let charges := rawSumCharges events
  let payments := rawSumPayments events
  let si := computeSpdInterests previousBalance events annualRateUnit startPeriod statementDay
  let interests := accrueTotalInterests si.1 carryOver
  let bonifiableInterest := round2 si.2
  let statementBalance := round2 (max 0 (previousBalance + charges + interests - payments))
  let installmentBalance := round2 (statementBalance + bonifiableInterest)
  { previousBalance := previousBalance
    charges := charges
    interests := interests
    payments := payments
    statementBalance := statementBalance
    bonifiableInterest := bonifiableInterest
    installmentBalance := installmentBalance
    annualEffectiveRate := annualRateUnit
    paymentMade := paymentMade }

/-! ### The idempotency gate of `accrueDebt` (lines 398-413)

`accrueDebt`'s scope declares the bindings `id`, `recompute`, `dateParam`,
`periodParam`, `baseDate`, … — but no `dryRun` (the module never declares
one either; line 495 notes the dry-run feature was removed). Line 405 reads
`if (!recompute && !dryRun)`: when a record exists and `recompute` is
false, the second conjunct dereferences the unbound identifier, which in an
ES module raises `ReferenceError: dryRun is not defined`; the surrounding
`try/catch` forwards it to the error handler (an HTTP 500). -/

/-- A thrown JS runtime error. -/
inductive JsError where
  | referenceError (name : String)
deriving DecidableEq

/-- The binding line 405 reads for `dryRun`: none exists in scope. -/
def dryRunBinding : Option Bool := none

/-- Outcome of the existing-record gate. -/
inductive GateOutcome where
  | skippedAlreadyAccrued
  | proceed
deriving DecidableEq

/-- The gate of debtController.js lines 401-413 for a given store state:
`recordExists` is line 401's `exists`, and `!recompute && !dryRun` is
evaluated left to right with JS short-circuiting. -/
def accrueExistingGate (recordExists recompute : Bool) : Except JsError GateOutcome :=
  if recordExists then
    if !recompute then
      match dryRunBinding with
      | none => .error (.referenceError "dryRun")
      | some dr => if !dr then .ok .skippedAlreadyAccrued else .ok .proceed
    else .ok .proceed
  else .ok .proceed

/-- The readable form of the `buildEvents` ordering: ascending dates, and on
equal dates never a charge before a payment. -/
def eventOrd (a b : Event) : Prop :=
  a.date < b.date ∨ (a.date = b.date ∧ (a.kind = .payment ∨ b.kind = .charge))

/-- The `(cursor, nb, nbDays)` projection of the walk state: everything the
carried-interest output depends on. -/
def nbView (s : SpdState) : ℤ × ℚ × ℚ := (s.cursor, s.nb, s.nbDays)

/-! ### Helper lemmas -/

theorem ratFloor_eq_intFloor (q : ℚ) : q.floor = ⌊q⌋ := by
  rw [Rat.floor_def, Rat.floor_def']

theorem round2_def (q : ℚ) : round2 q = ((⌊q * 100 + 1 / 2⌋ : ℤ) : ℚ) / 100 := by
  unfold round2
  rw [ratFloor_eq_intFloor]

theorem isR2_round2 (q : ℚ) : isR2 (round2 q) := ⟨(q * 100 + 1 / 2).floor, rfl⟩

theorem isR2_zero : isR2 0 := ⟨0, by norm_num⟩

theorem isR2_add {a b : ℚ} (ha : isR2 a) (hb : isR2 b) : isR2 (a + b) := by
  obtain ⟨m, rfl⟩ := ha
  obtain ⟨n, rfl⟩ := hb
  exact ⟨m + n, by push_cast; ring⟩

theorem isR2_sub {a b : ℚ} (ha : isR2 a) (hb : isR2 b) : isR2 (a - b) := by
  obtain ⟨m, rfl⟩ := ha
  obtain ⟨n, rfl⟩ := hb
  exact ⟨m - n, by push_cast; ring⟩

theorem round2_eq_self {q : ℚ} (h : isR2 q) : round2 q = q := by
  obtain ⟨n, rfl⟩ := h
  rw [round2_def]
  have h100 : (n : ℚ) / 100 * 100 + 1 / 2 = 1 / 2 + (n : ℚ) := by
    field_simp
    ring
  rw [h100, Int.floor_add_int]
  norm_num

theorem round2_nonneg {q : ℚ} (h : 0 ≤ q) : 0 ≤ round2 q := by
  rw [round2_def]
  have hfl : (0 : ℤ) ≤ ⌊q * 100 + 1 / 2⌋ := Int.floor_nonneg.mpr (by positivity)
  have : (0 : ℚ) ≤ (⌊q * 100 + 1 / 2⌋ : ℚ) := by exact_mod_cast hfl
  positivity

theorem addSegment_nb (s : SpdState) (u : ℤ) : (addSegment s u).nb = s.nb := by
  unfold addSegment; split_ifs <;> rfl

theorem addSegment_b (s : SpdState) (u : ℤ) : (addSegment s u).b = s.b := by
  unfold addSegment; split_ifs <;> rfl

theorem addSegment_cursor_fix (s : SpdState) (u : ℤ) :
    ¬ 0 < u - (addSegment s u).cursor := by
  unfold addSegment
  split_ifs with h
  · simp
  · simpa using h

theorem addSegment_of_cursor {s : SpdState} {u : ℤ} (h : ¬ 0 < u - s.cursor) :
    addSegment s u = s := if_neg h

theorem applyEvent_cursor (s : SpdState) (e : Event) :
    (applyEvent s e).cursor = (addSegment s e.date).cursor := by
  unfold applyEvent
  cases e.kind <;> rfl

theorem addSegment_cursor_le {s : SpdState} {u v : ℤ} (hs : s.cursor ≤ v) (hu : u ≤ v) :
    (addSegment s u).cursor ≤ v := by
  unfold addSegment; split_ifs <;> simpa

theorem foldl_cursor_le {st : ℤ} :
    ∀ {l : List Event} {s : SpdState}, s.cursor ≤ st → (∀ e ∈ l, e.date < st) →
      (l.foldl applyEvent s).cursor ≤ st := by
  intro l
  induction l with
  | nil => intro s hs _; exact hs
  | cons e l ih =>
    intro s hs hl
    have he : e.date < st := hl e (List.mem_cons_self e l)
    have : (applyEvent s e).cursor ≤ st := by
      rw [applyEvent_cursor]
      exact addSegment_cursor_le hs he.le
    exact ih this (fun x hx => hl x (List.mem_cons_of_mem e hx))

theorem nbView_addSegment {s t : SpdState} (h : nbView s = nbView t) (u : ℤ) :
    nbView (addSegment s u) = nbView (addSegment t u) := by
  have h1 : s.cursor = t.cursor := congrArg (fun p => p.1) h
  have h2 : s.nb = t.nb := congrArg (fun p => p.2.1) h
  have h3 : s.nbDays = t.nbDays := congrArg (fun p => p.2.2) h
  unfold addSegment
  rw [h1]
  split_ifs <;> simp [nbView, h1, h2, h3]

theorem nbView_applyEvent {s t : SpdState} (h : nbView s = nbView t) (e : Event) :
    nbView (applyEvent s e) = nbView (applyEvent t e) := by
  have hseg := nbView_addSegment h e.date
  have h1 : (addSegment s e.date).cursor = (addSegment t e.date).cursor :=
    congrArg (fun p => p.1) hseg
  have h2 : (addSegment s e.date).nb = (addSegment t e.date).nb :=
    congrArg (fun p => p.2.1) hseg
  have h3 : (addSegment s e.date).nbDays = (addSegment t e.date).nbDays :=
    congrArg (fun p => p.2.2) hseg
  unfold applyEvent
  cases e.kind <;> simp [nbView, h1, h2, h3]

theorem nbView_foldl {s t : SpdState} (h : nbView s = nbView t) (l : List Event) :
    nbView (l.foldl applyEvent s) = nbView (l.foldl applyEvent t) := by
  induction l generalizing s t with
  | nil => exact h
  | cons e l ih => exact ih (nbView_applyEvent h e)

theorem nbView_swap (s : SpdState) (d : ℤ) (a c : ℚ) :
    nbView (applyEvent (applyEvent s ⟨d, .payment, a⟩) ⟨d, .charge, c⟩) =
      nbView (applyEvent (applyEvent s ⟨d, .charge, c⟩) ⟨d, .payment, a⟩) := by
  have hfixP : addSegment (applyEvent s ⟨d, .payment, a⟩) d = applyEvent s ⟨d, .payment, a⟩ := by
    apply addSegment_of_cursor
    rw [applyEvent_cursor]
    exact addSegment_cursor_fix s d
  have hfixC : addSegment (applyEvent s ⟨d, .charge, c⟩) d = applyEvent s ⟨d, .charge, c⟩ := by
    apply addSegment_of_cursor
    rw [applyEvent_cursor]
    exact addSegment_cursor_fix s d
  show nbView (applyEvent _ ⟨d, .charge, c⟩) = nbView (applyEvent _ ⟨d, .payment, a⟩)
  conv_lhs => rw [applyEvent]
  conv_rhs => rw [applyEvent]
  simp only [hfixP, hfixC]
  simp [applyEvent, nbView]

theorem bNonneg_addSegment {s : SpdState} (h : 0 ≤ s.b ∧ 0 ≤ s.bDays) (u : ℤ) :
    0 ≤ (addSegment s u).b ∧ 0 ≤ (addSegment s u).bDays := by
  unfold addSegment
  split_ifs with hc
  · refine ⟨h.1, add_nonneg h.2 (mul_nonneg h.1 ?_)⟩
    have : (0 : ℤ) ≤ u - s.cursor := hc.le
    exact_mod_cast this
  · exact h

theorem bNonneg_applyEvent {s : SpdState} (h : 0 ≤ s.b ∧ 0 ≤ s.bDays) {e : Event}
    (he : 0 ≤ e.amount) : 0 ≤ (applyEvent s e).b ∧ 0 ≤ (applyEvent s e).bDays := by
  have h' := bNonneg_addSegment h e.date
  unfold applyEvent
  cases e.kind
  · exact ⟨add_nonneg h'.1 he, h'.2⟩
  · exact ⟨le_max_left 0 _, h'.2⟩

theorem bNonneg_foldl :
    ∀ {l : List Event} {s : SpdState}, 0 ≤ s.b ∧ 0 ≤ s.bDays → (∀ e ∈ l, 0 ≤ e.amount) →
      0 ≤ (l.foldl applyEvent s).b ∧ 0 ≤ (l.foldl applyEvent s).bDays := by
  intro l
  induction l with
  | nil => intro s hs _; exact hs
  | cons e l ih =>
    intro s hs hl
    exact ih (bNonneg_applyEvent hs (hl e (List.mem_cons_self e l)))
      (fun x hx => hl x (List.mem_cons_of_mem e hx))

theorem runSpd_bDays_nonneg {pb : ℚ} {events : List Event} {start endDate : ℤ}
    (h : ∀ e ∈ events, 0 ≤ e.amount) : 0 ≤ (runSpd pb events start endDate).bDays := by
  unfold runSpd
  have h0 : 0 ≤ (spdInit pb start).b ∧ 0 ≤ (spdInit pb start).bDays := by
    constructor <;> simp [spdInit]
  exact (bNonneg_addSegment (bNonneg_foldl h0 h) endDate).2

theorem buildEvents_amount_pos {expenses : List Expense} {debtId : String}
    {startInclusive endExclusive : ℤ} :
    ∀ ev ∈ buildEvents expenses debtId startInclusive endExclusive, 0 < ev.amount := by
  intro ev hm
  unfold buildEvents at hm
  rw [List.mem_insertionSort, List.mem_filterMap] at hm
  obtain ⟨x, _, hx⟩ := hm
  rcases hdid : x.debtId with _ | did <;> rw [hdid] at hx
  · exact absurd hx (by simp)
  rcases hdate : x.date with _ | d <;> rw [hdate] at hx
  · exact absurd hx (by simp)
  simp only at hx
  split_ifs at hx with h1 h2 h3 h4 h5 h6
  all_goals simp at hx
  all_goals subst hx
  all_goals push_neg at h4
  all_goals simpa using h4

theorem runSpd_extend {pb : ℚ} {events : List Event} {start st next : ℤ}
    (hss : start ≤ st) (hsn : st ≤ next) (hev : ∀ e ∈ events, e.date < st) :
    (runSpd pb events start next).nbDays
        = (runSpd pb events start st).nbDays
          + (runSpd pb events start st).nb * ((next - st : ℤ) : ℚ)
    ∧ (runSpd pb events start next).bDays
        = (runSpd pb events start st).bDays
          + (runSpd pb events start st).b * ((next - st : ℤ) : ℚ) := by
  unfold runSpd
  set F := events.foldl applyEvent (spdInit pb start) with hF
  have hc : F.cursor ≤ st := by
    apply foldl_cursor_le _ hev
    simpa [spdInit] using hss
  unfold addSegment
  rcases lt_or_eq_of_le hc with hlt | heq
  · have h1 : 0 < st - F.cursor := by omega
    have h2 : 0 < next - F.cursor := by omega
    rw [if_pos h1, if_pos h2]
    constructor <;> (push_cast; ring)
  · have h1 : ¬ 0 < st - F.cursor := by omega
    have hnc : next - F.cursor = next - st := by omega
    rw [if_neg h1, hnc]
    by_cases h3 : 0 < next - st
    · rw [if_pos h3]
      exact ⟨rfl, rfl⟩
    · rw [if_neg h3]
      have hz : ((next - st : ℤ) : ℚ) = 0 := by
        have h0 : next - st = 0 := by omega
        rw [h0]
        norm_num
      rw [hz]
      constructor <;> ring

theorem runSpd_nil (pb : ℚ) (start endDate : ℤ) :
    (runSpd pb [] start endDate).nbDays
      = max 0 pb * ((max 0 (endDate - start) : ℤ) : ℚ) := by
  unfold runSpd spdInit addSegment
  simp only [List.foldl_nil]
  split_ifs with h
  · have : max 0 (endDate - start) = endDate - start := max_eq_right h.le
    rw [this]
    ring
  · have : max 0 (endDate - start) = 0 := max_eq_left (by omega)
    rw [this]
    simp

theorem evLe_imp_eventOrd {a b : Event} (h : evLe a b) : eventOrd a b := by
  unfold evLe evKey at h
  unfold eventOrd
  cases ha : a.kind <;> cases hb : b.kind <;> simp [ha, hb] at h ⊢ <;> omega

theorem normYM_small {y m : ℤ} (h0 : 0 ≤ m) (h1 : m < 12) : normYM y m = (y, m) := by
  unfold normYM
  rw [Int.fdiv_eq_ediv _ (by norm_num : (0 : ℤ) ≤ 12)]
  rw [Int.ediv_eq_zero_of_lt h0 h1]
  rw [show m.emod 12 = m % 12 from rfl, Int.emod_eq_of_lt h0 h1]
  simp

theorem normYM_twelve (y : ℤ) : normYM y 12 = (y + 1, 0) := by
  unfold normYM
  rw [Int.fdiv_eq_ediv _ (by norm_num : (0 : ℤ) ≤ 12)]
  norm_num

/-! ### Claim theorems -/

/-- C1: Carry-over rule. With `computeInterestCarryOver` modelled from the
spec (its definition is not among the provided sources), the cycle's total
interest (debtController.js line 490) equals the daily-balance carried
interest plus the carry-over whenever the addends are 2-decimal amounts
(which they are in the controller: the walk output is rounded, the prior
record's forgivable interest was rounded when written, and
`sumPaymentsForDebt` rounds its total); the carry-over equals
`prevForgivable − paid` when `paid < prevForgivable` and 0 otherwise, with
the spec's 10.00/6.00 ↦ 4.00 and 10.00/10.00 ↦ 0.00 examples. -/
theorem c1_carry_over_rule :
    (∀ (pb : ℚ) (events : List Event) (rate : ℚ) (s e : ℤ) (bonif paid : ℚ),
      isR2 bonif → isR2 paid →
      accrueTotalInterests (computeSpdInterests pb events rate s e).1
          (computeInterestCarryOver bonif paid)
        = (computeSpdInterests pb events rate s e).1 + computeInterestCarryOver bonif paid
      ∧ (paid < bonif → computeInterestCarryOver bonif paid = bonif - paid)
      ∧ (bonif ≤ paid → computeInterestCarryOver bonif paid = 0))
    ∧ computeInterestCarryOver 10 6 = 4
    ∧ computeInterestCarryOver 10 10 = 0 := by
  refine ⟨fun pb events rate s e bonif paid hb hp => ⟨?_, ?_, ?_⟩,
    by norm_num [computeInterestCarryOver], by norm_num [computeInterestCarryOver]⟩
  · have hiss : isR2 (computeSpdInterests pb events rate s e).1 := isR2_round2 _
    have hco : isR2 (computeInterestCarryOver bonif paid) := by
      unfold computeInterestCarryOver
      split_ifs
      · exact isR2_sub hb hp
      · exact isR2_zero
    exact round2_eq_self (isR2_add hiss hco)
  · intro h
    simp [computeInterestCarryOver, h]
  · intro h
    simp [computeInterestCarryOver, not_lt.mpr h]

/-- Witness for C1 at `interestSobreSaldo = (computeSpdInterests 0 [] 0 0 0).1`,
prior forgivable interest 10.00 and payments 6.00. -/
theorem c1_carry_over_rule_witness :
    accrueTotalInterests (computeSpdInterests 0 [] 0 0 0).1 (computeInterestCarryOver 10 6)
      = (computeSpdInterests 0 [] 0 0 0).1 + computeInterestCarryOver 10 6 :=
  (c1_carry_over_rule.1 0 [] 0 0 0 10 6 ⟨1000, by norm_num⟩ ⟨600, by norm_num⟩).1

/-- C2: the claim says a second `recompute=false` computation against a
store that already holds the record returns the existing record with no
write. The code instead evaluates `!recompute && !dryRun`
(debtController.js line 405) with no `dryRun` binding in scope, raising
`ReferenceError` — the gate errors rather than producing the
skip/return-cached outcome (while the absent-record and `recompute=true`
paths proceed normally). -/
theorem c2_recorded_gate_throws :
    accrueExistingGate true false = .error (.referenceError "dryRun")
    ∧ accrueExistingGate false false = .ok .proceed
    ∧ accrueExistingGate true true = .ok .proceed :=
  ⟨rfl, rfl, rfl⟩

/-- C6 (amended): of the currency fields finalized into the persisted
record, `interests`, `statementBalance`, `bonifiableInterest` and
`installmentBalance` are rounded to 2 decimals, while `previousBalance`,
`charges` and `payments` are written unrounded (raw sums / the value as
read); the pure calculator's `sumCharges`/`sumPayments` helpers do round. -/
theorem c6_rounding_amended (pb rate carry paid : ℚ) (events : List Event) (sp sd : ℤ) :
    isR2 (mkAccrueRecord pb events rate sp sd carry paid).interests
    ∧ isR2 (mkAccrueRecord pb events rate sp sd carry paid).statementBalance
    ∧ isR2 (mkAccrueRecord pb events rate sp sd carry paid).bonifiableInterest
    ∧ isR2 (mkAccrueRecord pb events rate sp sd carry paid).installmentBalance
    ∧ (mkAccrueRecord pb events rate sp sd carry paid).charges = rawSumCharges events
    ∧ (mkAccrueRecord pb events rate sp sd carry paid).payments = rawSumPayments events
    ∧ (mkAccrueRecord pb events rate sp sd carry paid).previousBalance = pb
    ∧ sumCharges events = round2 (rawSumCharges events)
    ∧ sumPayments events = round2 (rawSumPayments events) :=
  ⟨isR2_round2 _, isR2_round2 _, isR2_round2 _, isR2_round2 _, rfl, rfl, rfl, rfl, rfl⟩

/-- C6 (counterexample): a single charge of 1.001 in the window makes the
persisted `charges` field 1.001, which is not a 2-decimal rounding of
anything — the record field is written unrounded, refuting "every currency
aggregate … is rounded to exactly 2 decimal places". -/
theorem c6_rounding_counterexample :
    (mkAccrueRecord 0 [⟨0, .charge, 1001 / 1000⟩] 0 0 10 0 0).charges = 1001 / 1000
    ∧ round2 (1001 / 1000) = 1
    ∧ (mkAccrueRecord 0 [⟨0, .charge, 1001 / 1000⟩] 0 0 10 0 0).charges
        ≠ round2 ((mkAccrueRecord 0 [⟨0, .charge, 1001 / 1000⟩] 0 0 10 0 0).charges) := by
  have hch : (mkAccrueRecord 0 [⟨0, .charge, 1001 / 1000⟩] 0 0 10 0 0).charges
      = 1001 / 1000 := by
    show rawSumCharges [⟨0, .charge, 1001 / 1000⟩] = 1001 / 1000
    norm_num [rawSumCharges, List.filter]
  have hr : round2 (1001 / 1000 : ℚ) = 1 := by
    rw [round2_def]
    norm_num
  refine ⟨hch, hr, ?_⟩
  rw [hch, hr]
  norm_num

/-- C7: the statement balance equals
`round2 (max 0 (previousBalance + charges + interests − payments))` for all
inputs, and is therefore never negative. -/
theorem c7_statement_balance_formula (pb charges interests payments : ℚ) :
    computeStatement pb charges interests payments
      = round2 (max 0 (pb + charges + interests - payments))
    ∧ 0 ≤ computeStatement pb charges interests payments :=
  ⟨rfl, round2_nonneg (le_max_left 0 _)⟩

/-- C10: rate normalization returns 0 for null/undefined/non-finite input,
divides by 100 exactly when the value exceeds 1, passes every value ≤ 1
through unchanged (so 0.5 stays the unit rate 0.5, and negative rates pass
through, making a negative interest component possible). -/
theorem c10_rate_normalization :
    normalizeAnnualRateToUnit .jsNull = 0
    ∧ normalizeAnnualRateToUnit .jsUndefined = 0
    ∧ normalizeAnnualRateToUnit .nanNum = 0
    ∧ normalizeAnnualRateToUnit .infNum = 0
    ∧ normalizeAnnualRateToUnit .negInfNum = 0
    ∧ (∀ q : ℚ, 1 < q → normalizeAnnualRateToUnit (.num q) = q / 100)
    ∧ (∀ q : ℚ, q ≤ 1 → normalizeAnnualRateToUnit (.num q) = q)
    ∧ normalizeAnnualRateToUnit (.num (1 / 2)) = 1 / 2
    ∧ (∀ q : ℚ, q < 0 → normalizeAnnualRateToUnit (.num q) = q)
    ∧ (computeSpdInterests 100 [] (normalizeAnnualRateToUnit (.num (-1))) 0 10).1 < 0 := by
  refine ⟨rfl, rfl, rfl, rfl, rfl, ?_, ?_, ?_, ?_, ?_⟩
  · intro q h
    simp [normalizeAnnualRateToUnit, h]
  · intro q h
    simp [normalizeAnnualRateToUnit, not_lt.mpr h]
  · norm_num [normalizeAnnualRateToUnit]
  · intro q h
    simp [normalizeAnnualRateToUnit, not_lt.mpr (le_of_lt (lt_of_lt_of_le h zero_le_one))]
  · show round2 ((runSpd 100 [] 0 10).nbDays * (normalizeAnnualRateToUnit (.num (-1)) / 365)) < 0
    rw [show (runSpd 100 [] 0 10).nbDays = 1000 by
      norm_num [runSpd, spdInit, addSegment]]
    rw [show normalizeAnnualRateToUnit (.num (-1)) = -1 by
      norm_num [normalizeAnnualRateToUnit]]
    rw [round2_def]
    norm_num

/-- C3 (amended): the walk's cursor starts at the window's lower bound, and
the walk accrues balance-days exactly up to the `endDate` argument it is
given: running it to a later bound `next ≥ st` adds exactly
`(next − st) × finalBalance` to each accumulator. The accrue/preview inline
walks pass the statement date as that bound, so no day on or after the
statement date contributes there; `calculateStatement` passes
`nextStatementDate` instead, so there the days of
`[statementDate, nextStatementDate)` do contribute (see the
counterexample). -/
theorem c3_accrual_window (pb : ℚ) (events : List Event) (start st next : ℤ)
    (hss : start ≤ st) (hsn : st ≤ next) (hev : ∀ e ∈ events, e.date < st) :
    ((runSpd pb events start next).nbDays
        = (runSpd pb events start st).nbDays
          + (runSpd pb events start st).nb * ((next - st : ℤ) : ℚ)
      ∧ (runSpd pb events start next).bDays
        = (runSpd pb events start st).bDays
          + (runSpd pb events start st).b * ((next - st : ℤ) : ℚ))
    ∧ (spdInit pb start).cursor = start
    ∧ (runSpd pb [] start st).nbDays = max 0 pb * ((max 0 (st - start) : ℤ) : ℚ) :=
  ⟨runSpd_extend hss hsn hev, rfl, runSpd_nil pb start st⟩

/-- Witness for C3 (amended) on the empty event list over
`start = 0, st = 31, next = 62` with previous balance 1000. -/
theorem c3_accrual_window_witness :
    (runSpd 1000 [] 0 62).nbDays
      = (runSpd 1000 [] 0 31).nbDays + (runSpd 1000 [] 0 31).nb * ((62 - 31 : ℤ) : ℚ) :=
  ((c3_accrual_window 1000 [] 0 31 62 (by norm_num) (by norm_num)
    (fun e he => absurd he (List.not_mem_nil e))).1).1

/-- C3 (counterexample): for a debt with cutoff day 20, due day 5, rate 36
and balance 1000 computed for January 2024 with an empty ledger,
`calculateStatement` yields interest 61.15 — the walk of a 31-day window
run to `nextStatementDate` (62 days of balance) — while the same walk ended
at the statement date yields 30.58; days on/after the statement date
contributed, refuting the claim as stated about `calculateStatement`. -/
theorem c3_window_counterexample :
    (resolvePeriodBounds (some 20) (some 5) ⟨2024, 0, 25⟩).statementDate = ⟨2024, 0, 20⟩
    ∧ (resolvePeriodBounds (some 20) (some 5) ⟨2024, 0, 25⟩).nextStatementDate = ⟨2024, 1, 20⟩
    ∧ (calculateStatement ⟨"d1", 1000, some 5, some 20, .num 36⟩ [] none ⟨2024, 0, 25⟩).interests
        = 1223 / 20
    ∧ (computeSpdInterests 1000 [] (normalizeAnnualRateToUnit (.num 36))
        (dayNumber ⟨2023, 11, 20⟩) (dayNumber ⟨2024, 0, 20⟩)).1 = 1529 / 50
    ∧ (1223 / 20 : ℚ) ≠ 1529 / 50 := by
  have hb : resolvePeriodBounds (some 20) (some 5) ⟨2024, 0, 25⟩
      = ⟨⟨2023, 11, 20⟩, ⟨2024, 0, 20⟩, ⟨2024, 1, 20⟩, ⟨2024, 0, 5⟩, 31⟩ := by decide
  have hrate : normalizeAnnualRateToUnit (.num 36) = 36 / 100 := by
    norm_num [normalizeAnnualRateToUnit]
  have h62 : dayNumber ⟨2024, 1, 20⟩ - dayNumber ⟨2023, 11, 20⟩ = 62 := by decide
  have h31 : dayNumber ⟨2024, 0, 20⟩ - dayNumber ⟨2023, 11, 20⟩ = 31 := by decide
  have hnil62 : (runSpd 1000 [] (dayNumber ⟨2023, 11, 20⟩) (dayNumber ⟨2024, 1, 20⟩)).nbDays
      = 62000 := by
    rw [runSpd_nil, show max 0 (dayNumber ⟨2024, 1, 20⟩ - dayNumber ⟨2023, 11, 20⟩) = 62 by
      rw [h62]; norm_num]
    norm_num
  have hnil31 : (runSpd 1000 [] (dayNumber ⟨2023, 11, 20⟩) (dayNumber ⟨2024, 0, 20⟩)).nbDays
      = 31000 := by
    rw [runSpd_nil, show max 0 (dayNumber ⟨2024, 0, 20⟩ - dayNumber ⟨2023, 11, 20⟩) = 31 by
      rw [h31]; norm_num]
    norm_num
  refine ⟨by rw [hb], by rw [hb], ?_, ?_, by norm_num⟩
  · show round2 (computeSpdInterests 1000
        (buildEvents [] "d1"
          (dayNumber (resolvePeriodBounds (some 20) (some 5) ⟨2024, 0, 25⟩).prevStatementDate)
          (dayNumber (resolvePeriodBounds (some 20) (some 5) ⟨2024, 0, 25⟩).statementDate))
        (normalizeAnnualRateToUnit (.num 36))
        (dayNumber (resolvePeriodBounds (some 20) (some 5) ⟨2024, 0, 25⟩).prevStatementDate)
        (dayNumber (resolvePeriodBounds (some 20) (some 5) ⟨2024, 0, 25⟩).nextStatementDate)).1
      = 1223 / 20
    rw [hb]
    show round2 (round2 ((runSpd 1000 (buildEvents [] "d1" _ _)
        (dayNumber ⟨2023, 11, 20⟩) (dayNumber ⟨2024, 1, 20⟩)).nbDays
          * (normalizeAnnualRateToUnit (.num 36) / 365))) = 1223 / 20
    rw [show buildEvents [] "d1" (dayNumber ⟨2023, 11, 20⟩) (dayNumber ⟨2024, 0, 20⟩)
        = [] from rfl]
    rw [hnil62, hrate]
    rw [round2_def, round2_def]
    norm_num
  · show round2 ((runSpd 1000 [] (dayNumber ⟨2023, 11, 20⟩) (dayNumber ⟨2024, 0, 20⟩)).nbDays
        * (normalizeAnnualRateToUnit (.num 36) / 365)) = 1529 / 50
    rw [hnil31, hrate, round2_def]
    norm_num

/-- C4 (amended): in the statement endpoints the due date — resolved via
`nextDateForDayOfMonth` anchored at the statement date — is on or after the
statement date, is the clamped due-day occurrence in its month, falls in
the following month whenever `dueDay` is strictly less than the statement
date's day-of-month, and defaults to the clamped 25th of the statement
month when no due day is configured. (`resolvePeriodBounds`' due date is
not anchored; see the counterexample.) -/
theorem c4_due_date_anchoring (st : CalDate) (k : ℤ) (hv : ValidDate st) (hk : 1 ≤ k) :
    dateLE st (accrueDueDate (some k) st)
    ∧ (accrueDueDate (some k) st).day
        = clampDay (accrueDueDate (some k) st).year (accrueDueDate (some k) st).month k
    ∧ (k < st.day →
        accrueDueDate (some k) st
          = ⟨(normYM st.year (st.month + 1)).1, (normYM st.year (st.month + 1)).2,
              clampDay (normYM st.year (st.month + 1)).1 (normYM st.year (st.month + 1)).2 k⟩)
    ∧ accrueDueDate none st = ⟨st.year, st.month, clampDay st.year st.month 25⟩ := by
  obtain ⟨hm0, hm11, hd1, hdim⟩ := hv
  by_cases hT : clampDay st.year st.month k < st.day
  · have hdef : accrueDueDate (some k) st
        = ⟨(normYM st.year (st.month + 1)).1, (normYM st.year (st.month + 1)).2,
            clampDay (normYM st.year (st.month + 1)).1 (normYM st.year (st.month + 1)).2 k⟩ := by
      simp only [accrueDueDate, nextDateForDayOfMonth, if_pos hT]
    refine ⟨?_, ?_, fun _ => hdef, rfl⟩
    · rcases (show st.month = 11 ∨ st.month < 11 from by omega) with h11 | h11
      · have h12 : st.month + 1 = 12 := by omega
        have hn : normYM st.year (st.month + 1) = (st.year + 1, 0) := by
          rw [h12, normYM_twelve]
        rw [hdef, hn]
        show dateLE st ⟨st.year + 1, 0, clampDay (st.year + 1) 0 k⟩
        exact Or.inl (lt_add_one st.year)
      · have hn : normYM st.year (st.month + 1) = (st.year, st.month + 1) :=
          normYM_small (by omega) (by omega)
        rw [hdef, hn]
        show dateLE st ⟨st.year, st.month + 1, clampDay st.year (st.month + 1) k⟩
        exact Or.inr ⟨rfl, Or.inl (lt_add_one st.month)⟩
    · rw [hdef]
  · have hdef : accrueDueDate (some k) st
        = ⟨st.year, st.month, clampDay st.year st.month k⟩ := by
      simp only [accrueDueDate, nextDateForDayOfMonth, if_neg hT]
    refine ⟨?_, ?_, fun hlt => absurd ?_ hT, rfl⟩
    · rw [hdef]
      exact Or.inr ⟨rfl, Or.inr ⟨rfl, le_of_not_lt hT⟩⟩
    · rw [hdef]
    · unfold clampDay
      rw [max_eq_right hk]
      exact lt_of_le_of_lt (min_le_left _ _) hlt

/-- Witness for C4 (amended): statement date 2024-01-20 (0-based month 0)
with due day 5 resolves to 2024-02-05, on or after the statement date. -/
theorem c4_due_date_anchoring_witness :
    dateLE ⟨2024, 0, 20⟩ (accrueDueDate (some 5) ⟨2024, 0, 20⟩) :=
  (c4_due_date_anchoring ⟨2024, 0, 20⟩ 5 (by constructor <;> norm_num [daysInMonth])
    (by norm_num)).1

/-- C4 (counterexample): `resolvePeriodBounds` with cutoff day 20 and due
day 5, from base 2024-01-25, yields statement date 2024-01-20 but due date
2024-01-05 — *before* the statement date, refuting "anchored on or after
the statement date, never before" for that resolver. -/
theorem c4_due_date_counterexample :
    (resolvePeriodBounds (some 20) (some 5) ⟨2024, 0, 25⟩).statementDate = ⟨2024, 0, 20⟩
    ∧ (resolvePeriodBounds (some 20) (some 5) ⟨2024, 0, 25⟩).dueDate = ⟨2024, 0, 5⟩
    ∧ ¬ dateLE (resolvePeriodBounds (some 20) (some 5) ⟨2024, 0, 25⟩).statementDate
        (resolvePeriodBounds (some 20) (some 5) ⟨2024, 0, 25⟩).dueDate := by
  decide

/-- C5: on the accrue/preview routes — validator middleware plus controller
check — every explicit period tag that is not a valid `YYYY-MM` year/month
resolves to an `ApiError` with HTTP status 400 (so no statement is
computed), never falling back to reference-date resolution; in particular
for "2024-1", "garbage" (rejected by the route validator) and "2024-13"
(rejected by the controller's month-range check). -/
theorem c5_invalid_period_tag :
    (∀ (s : String) (cutOffDay : Option ℤ) (base : CalDate), ¬ validPeriodTag s →
      ∃ msg, accrueStatementDate (some s) cutOffDay base = .error ⟨400, msg⟩)
    ∧ (∃ msg, accrueStatementDate (some "2024-1") (some 20) ⟨2024, 0, 25⟩ = .error ⟨400, msg⟩)
    ∧ (∃ msg, accrueStatementDate (some "garbage") (some 20) ⟨2024, 0, 25⟩ = .error ⟨400, msg⟩)
    ∧ (∃ msg, accrueStatementDate (some "2024-13") (some 20) ⟨2024, 0, 25⟩ = .error ⟨400, msg⟩) := by
  refine ⟨?_, ⟨"Validation failed", rfl⟩, ⟨"Validation failed", rfl⟩,
    ⟨"Invalid period format. Expected YYYY-MM", rfl⟩⟩
  intro s cut base h
  have hstep : accrueStatementDate (some s) cut base
      = if matchesYYYYMM s then
          (if (parsePeriodYM s).2 < 0 ∨ 11 < (parsePeriodYM s).2 then
            .error ⟨400, "Invalid period format. Expected YYYY-MM"⟩
          else
            match cut with
            | some c => .ok ⟨(parsePeriodYM s).1, (parsePeriodYM s).2,
                clampDay (parsePeriodYM s).1 (parsePeriodYM s).2 c⟩
            | none => .ok ⟨(parsePeriodYM s).1, (parsePeriodYM s).2,
                daysInMonth (parsePeriodYM s).1 (parsePeriodYM s).2⟩)
        else .error ⟨400, "Validation failed"⟩ := rfl
  rw [hstep]
  by_cases hm : matchesYYYYMM s = true
  · rw [if_pos hm]
    have hmth : (parsePeriodYM s).2 < 0 ∨ 11 < (parsePeriodYM s).2 := by
      unfold validPeriodTag at h
      push_neg at h
      rcases lt_or_le (parsePeriodYM s).2 0 with h0 | h0
      · exact Or.inl h0
      · exact Or.inr (h hm h0)
    rw [if_pos hmth]
    exact ⟨"Invalid period format. Expected YYYY-MM", rfl⟩
  · rw [if_neg hm]
    exact ⟨"Validation failed", rfl⟩

/-- Witness for C5 at the concrete malformed tag "2024-1". -/
theorem c5_invalid_period_tag_witness :
    ¬ validPeriodTag "2024-1"
    ∧ ∃ msg, accrueStatementDate (some "2024-1") (some 15) ⟨2024, 5, 10⟩ = .error ⟨400, msg⟩ :=
  ⟨by decide, c5_invalid_period_tag.1 "2024-1" (some 15) ⟨2024, 5, 10⟩ (by decide)⟩

/-- C8: for every statement computed from `buildEvents` ledger events with
a non-negative annual rate (the data model's 0–100 domain, enforced by the
debt validators), `installmentBalance` equals the 2-decimal rounding of
`statementBalance + bonifiableInterest` — which, both addends being
2-decimal amounts, is exactly their sum — and is at least the statement
balance. -/
theorem c8_installment_invariant (expenses : List Expense) (debtId : String)
    (pb pb2 charges itot pay rate : ℚ) (s1 e1 s2 e2 : ℤ) (hrate : 0 ≤ rate) :
    computeInstallmentBalance (computeStatement pb charges itot pay)
        (computeSpdInterests pb2 (buildEvents expenses debtId s1 e1) rate s2 e2).2
      = computeStatement pb charges itot pay
        + (computeSpdInterests pb2 (buildEvents expenses debtId s1 e1) rate s2 e2).2
    ∧ computeStatement pb charges itot pay
        ≤ computeInstallmentBalance (computeStatement pb charges itot pay)
            (computeSpdInterests pb2 (buildEvents expenses debtId s1 e1) rate s2 e2).2 := by
  have hibR : isR2 (computeSpdInterests pb2 (buildEvents expenses debtId s1 e1) rate s2 e2).2 :=
    isR2_round2 _
  have hib0 : 0 ≤ (computeSpdInterests pb2 (buildEvents expenses debtId s1 e1) rate s2 e2).2 := by
    show 0 ≤ round2 ((runSpd pb2 (buildEvents expenses debtId s1 e1) s2 e2).bDays * (rate / 365))
    apply round2_nonneg
    apply mul_nonneg
    · exact runSpd_bDays_nonneg (fun ev h => (buildEvents_amount_pos ev h).le)
    · exact div_nonneg hrate (by norm_num)
  have hsbR : isR2 (computeStatement pb charges itot pay) := isR2_round2 _
  have heq : computeInstallmentBalance (computeStatement pb charges itot pay)
      (computeSpdInterests pb2 (buildEvents expenses debtId s1 e1) rate s2 e2).2
      = computeStatement pb charges itot pay
        + (computeSpdInterests pb2 (buildEvents expenses debtId s1 e1) rate s2 e2).2 :=
    round2_eq_self (isR2_add hsbR hibR)
  refine ⟨heq, ?_⟩
  rw [heq]
  exact le_add_of_nonneg_right hib0

/-- Witness for C8 with an empty ledger and rate 0. -/
theorem c8_installment_invariant_witness :
    computeStatement 0 0 0 0
      ≤ computeInstallmentBalance (computeStatement 0 0 0 0)
          (computeSpdInterests 0 (buildEvents [] "d" 0 0) 0 0 0).2 :=
  (c8_installment_invariant [] "d" 0 0 0 0 0 0 0 0 0 0 (le_refl 0)).2

/-- C9: `buildEvents` output is sorted by ascending date with payments
never after charges on equal dates, and swapping a same-date payment/charge
pair from payment-first to charge-first leaves the carried-balance interest
unchanged (a payment's effect on the carried balance is independent of the
new-charge balance), so payment-first carried interest is ≤ charge-first. -/
theorem c9_same_date_tie_break :
    (∀ (expenses : List Expense) (debtId : String) (s e : ℤ),
        (buildEvents expenses debtId s e).Sorted eventOrd)
    ∧ (∀ (pb rate : ℚ) (s e : ℤ) (pre suf : List Event) (d : ℤ) (a c : ℚ),
        (computeSpdInterests pb (pre ++ ⟨d, .payment, a⟩ :: ⟨d, .charge, c⟩ :: suf) rate s e).1
          ≤ (computeSpdInterests pb (pre ++ ⟨d, .charge, c⟩ :: ⟨d, .payment, a⟩ :: suf) rate s e).1) := by
  constructor
  · intro expenses debtId s e
    unfold buildEvents
    exact List.Pairwise.imp (fun h => evLe_imp_eventOrd h) (List.sorted_insertionSort evLe _)
  · intro pb rate s e pre suf d a c
    apply le_of_eq
    have hswap :
        nbView ((pre ++ ⟨d, .payment, a⟩ :: ⟨d, .charge, c⟩ :: suf).foldl applyEvent (spdInit pb s))
          = nbView ((pre ++ ⟨d, .charge, c⟩ :: ⟨d, .payment, a⟩ :: suf).foldl applyEvent (spdInit pb s)) := by
      rw [List.foldl_append, List.foldl_append]
      simp only [List.foldl_cons]
      exact nbView_foldl (nbView_swap _ d a c) suf
    have hfin := nbView_addSegment hswap e
    have hnb : (runSpd pb (pre ++ ⟨d, .payment, a⟩ :: ⟨d, .charge, c⟩ :: suf) s e).nbDays
        = (runSpd pb (pre ++ ⟨d, .charge, c⟩ :: ⟨d, .payment, a⟩ :: suf) s e).nbDays :=
      congrArg (fun p => p.2.2) hfin
    show round2 ((runSpd pb (pre ++ ⟨d, .payment, a⟩ :: ⟨d, .charge, c⟩ :: suf) s e).nbDays
          * (rate / 365))
        = round2 ((runSpd pb (pre ++ ⟨d, .charge, c⟩ :: ⟨d, .payment, a⟩ :: suf) s e).nbDays
          * (rate / 365))
    rw [hnb]

/-- Witness for C10: a rate supplied as 50 is normalized to 0.5, and one
supplied as the fraction 0.5 stays 0.5. -/
theorem c10_rate_normalization_witness :
    normalizeAnnualRateToUnit (.num 50) = 50 / 100
    ∧ normalizeAnnualRateToUnit (.num (1 / 2)) = 1 / 2 :=
  ⟨c10_rate_normalization.2.2.2.2.2.1 50 (by norm_num),
    c10_rate_normalization.2.2.2.2.2.2.1 (1 / 2) (by norm_num)⟩

end CashFlow
